import Mathlib

/-
Verification of the scrying VNC capture engine and pixel decoder.

The definitions below are a shallow embedding of `src/vnc/mod.rs` and
`src/argparse.rs`.  Machine integers are modelled as `Nat` with explicit
`% 2 ^ w` where the Rust code can wrap; fallible Rust code returns a
result datatype whose constructors distinguish `Ok`, `Err` and a panic
(the Rust code is compiled in debug mode, where arithmetic overflow and
out-of-range slicing panic).  I/O (TCP, channels, the filesystem) is
modelled by an explicit environment record together with an effect trace.
-/

set_option maxHeartbeats 1000000

/-- Number of set bits in the low 16 bits of `n`.  This is
`u16::count_ones` (and `u32::count_ones` for the values below `2 ^ 16`
that the `u16` channel-max fields can take). -/
def countOnes (n : Nat) : Nat :=
  (List.range 16).foldl (fun acc i => acc + (n >>> i) % 2) 0

/-- `vnc::PixelFormat` (fields `u8`/`bool`/`u16` in the source, modelled
as `Nat`/`Bool`). -/
structure PixelFormat where
  bits_per_pixel : Nat
  depth : Nat
  big_endian : Bool
  true_colour : Bool
  red_max : Nat
  green_max : Nat
  blue_max : Nat
  red_shift : Nat
  green_shift : Nat
  blue_shift : Nat
deriving DecidableEq

/-- `vnc::Rect` (all fields `u16` in the source). -/
structure Rect where
  left : Nat
  top : Nat
  width : Nat
  height : Nat
deriving DecidableEq

/-- One 8-bit RGB pixel, as stored in the `ImageRgb8` buffer. -/
abbrev Rgb8 := Nat × Nat × Nat

/-- The pixel raster of an `ImageBuffer`, as a function from coordinates
to pixel values. -/
abbrev PixMap := Nat → Nat → Rgb8

/-- Result of `Image::pixel_to_rgb`: the `(r, g, b)` triple, a returned
`Err`, or a panic of the thread. -/
inductive PixelResult where
  | ok (r g b : Nat)
  | err (msg : String)
  | panicked (msg : String)
deriving DecidableEq

/-- `u16::from_be_bytes` / `u16::from_le_bytes` applied to the two bytes
of a pixel sample (`b0` is the first byte of the slice). -/
def u16_from_bytes (big : Bool) (b0 b1 : Nat) : Nat :=
  if big then (b0 % 256) * 256 + b1 % 256 else b0 % 256 + (b1 % 256) * 256

/-- `u32::from_be_bytes` / `u32::from_le_bytes` applied to the four bytes
of a pixel sample (`b0` is the first byte of the slice). -/
def u32_from_bytes (big : Bool) (b0 b1 b2 b3 : Nat) : Nat :=
  if big then
    (b0 % 256) * 16777216 + (b1 % 256) * 65536 + (b2 % 256) * 256 + b3 % 256
  else
    (b3 % 256) * 16777216 + (b2 % 256) * 65536 + (b1 % 256) * 256 + b0 % 256

/-- The `(16, 16) | (16, 15)` arm of `Image::pixel_to_rgb`: convert the
slice to `[u8; 2]` (`Err` on a wrong length), build the `u16` respecting
endianness, extract each channel as `(px >> shift) & max`, left-shift it
by `8 - max.count_ones()` and convert to `u8` (`Err` when above 255).
Debug-build panics are kept: a shift amount of 16 or more and a
`count_ones` above 8 (which makes `8 - count_ones` underflow) panic. -/
def pixel16 (f : PixelFormat) (bytes : List Nat) : PixelResult :=
  match bytes with
  | [b0, b1] =>
    let px := u16_from_bytes f.big_endian b0 b1
    if 16 ≤ f.blue_shift then PixelResult.panicked "attempt to shift right with overflow"
    else if 16 ≤ f.green_shift then PixelResult.panicked "attempt to shift right with overflow"
    else if 16 ≤ f.red_shift then PixelResult.panicked "attempt to shift right with overflow"
    else
      let b := (px >>> f.blue_shift) &&& f.blue_max
      let g := (px >>> f.green_shift) &&& f.green_max
      let r := (px >>> f.red_shift) &&& f.red_max
      if 8 < countOnes f.blue_max then PixelResult.panicked "attempt to subtract with overflow"
      else if 8 < countOnes f.green_max then PixelResult.panicked "attempt to subtract with overflow"
      else if 8 < countOnes f.red_max then PixelResult.panicked "attempt to subtract with overflow"
      else
        let b2 := (b <<< (8 - countOnes f.blue_max)) % 65536
        let g2 := (g <<< (8 - countOnes f.green_max)) % 65536
        let r2 := (r <<< (8 - countOnes f.red_max)) % 65536
        if 255 < r2 then PixelResult.err "out of range integral type conversion attempted"
        else if 255 < g2 then PixelResult.err "out of range integral type conversion attempted"
        else if 255 < b2 then PixelResult.err "out of range integral type conversion attempted"
        else PixelResult.ok r2 g2 b2
  | _ => PixelResult.err "could not convert slice to array"

/-- The `(32, 24)` arm of `Image::pixel_to_rgb`: convert the slice to
`[u8; 4]` (`Err` on a wrong length), build the `u32`, extract each
channel as `(px >> shift) & max` (no left shift) and convert to `u8`
(`Err` when above 255).  A shift amount of 32 or more panics. -/
def pixel32 (f : PixelFormat) (bytes : List Nat) : PixelResult :=
  match bytes with
  | [b0, b1, b2, b3] =>
    let px := u32_from_bytes f.big_endian b0 b1 b2 b3
    if 32 ≤ f.blue_shift then PixelResult.panicked "attempt to shift right with overflow"
    else if 32 ≤ f.green_shift then PixelResult.panicked "attempt to shift right with overflow"
    else if 32 ≤ f.red_shift then PixelResult.panicked "attempt to shift right with overflow"
    else
      let b := (px >>> f.blue_shift) &&& f.blue_max
      let g := (px >>> f.green_shift) &&& f.green_max
      let r := (px >>> f.red_shift) &&& f.red_max
      if 255 < r then PixelResult.err "out of range integral type conversion attempted"
      else if 255 < g then PixelResult.err "out of range integral type conversion attempted"
      else if 255 < b then PixelResult.err "out of range integral type conversion attempted"
      else PixelResult.ok r g b
  | _ => PixelResult.err "could not convert slice to array"

/-- `Image::pixel_to_rgb`.  The source matches on
`(format.bits_per_pixel, format.depth)`: the pairs `(16, 16)` and
`(16, 15)` share the two-byte arm, `(32, 24)` is the four-byte arm, and
every other pair hits `panic!("Unsupported colour depth ...")`. -/
def pixel_to_rgb (f : PixelFormat) (bytes : List Nat) : PixelResult :=
  if (f.bits_per_pixel = 16 ∧ f.depth = 16) ∨ (f.bits_per_pixel = 16 ∧ f.depth = 15) then
    pixel16 f bytes
  else if f.bits_per_pixel = 32 ∧ f.depth = 24 then
    pixel32 f bytes
  else PixelResult.panicked "Unsupported colour depth"

/-- The colour a successfully decoded sample contributes to the raster
(unused fallback for the failure cases). -/
def decodeColor (f : PixelFormat) (bytes : List Nat) : Rgb8 :=
  match pixel_to_rgb f bytes with
  | PixelResult.ok r g b => (r, g, b)
  | _ => (0, 0, 0)

/-- `ImageBuffer::put_pixel` on the raster function (the bounds check
lives in the loop model, where the source's panic is visible). -/
def putPixel (pix : PixMap) (x y : Nat) (c : Rgb8) : PixMap :=
  fun a b => if a = x then (if b = y then c else pix a b) else pix a b

/-- State of the `put_pixels` loops: the raster and the running byte
index `idx`, an early `Err` return (the raster keeps the pixels already
written), or a panic. -/
inductive LoopRes where
  | ok (pix : PixMap) (idx : Nat)
  | err (msg : String) (pix : PixMap)
  | panicked (msg : String)

/-- The inner `for x in rect.left..(rect.left + rect.width)` loop of
`Image::put_pixels`, with `cols` iterations left and `x` the current
column.  Each iteration slices `pixels[idx..idx + bpp]` (panicking when
the range exceeds the buffer), decodes it (`?` propagates an `Err`),
writes the pixel (`put_pixel` panics outside the `W × H` buffer) and
advances `idx` by `bpp`. -/
def putRowAux (f : PixelFormat) (bpp : Nat) (pixels : List Nat) (W H y : Nat) :
    Nat → Nat → PixMap → Nat → LoopRes
  | 0, _, pix, idx => LoopRes.ok pix idx
  | cols + 1, x, pix, idx =>
    if pixels.length < idx + bpp then
      LoopRes.panicked "range end index out of range for slice"
    else
      match pixel_to_rgb f ((pixels.drop idx).take bpp) with
      | PixelResult.ok r g b =>
        if x < W then
          if y < H then
            putRowAux f bpp pixels W H y cols (x + 1) (putPixel pix x y (r, g, b)) (idx + bpp)
          else LoopRes.panicked "Image index out of bounds"
        else LoopRes.panicked "Image index out of bounds"
      | PixelResult.err m => LoopRes.err m pix
      | PixelResult.panicked m => LoopRes.panicked m

/-- The outer `for y in rect.top..(rect.top + rect.height)` loop of
`Image::put_pixels`, with `rows` iterations left and `y` the current
row; each row runs the inner loop over `width` columns starting at
`left`. -/
def putRowsAux (f : PixelFormat) (bpp : Nat) (pixels : List Nat) (W H left width : Nat) :
    Nat → Nat → PixMap → Nat → LoopRes
  | 0, _, pix, idx => LoopRes.ok pix idx
  | rows + 1, y, pix, idx =>
    match putRowAux f bpp pixels W H y width left pix idx with
    | LoopRes.ok pix' idx' => putRowsAux f bpp pixels W H left width rows (y + 1) pix' idx'
    | LoopRes.err m p => LoopRes.err m p
    | LoopRes.panicked m => LoopRes.panicked m

/-- Result of `Image::put_pixels` on the owning image: `Ok(())` with the
updated raster, an `Err` (the raster keeps any pixels written before the
failure, because `self.image` is mutated in place), or a panic. -/
inductive PutResult where
  | ok (pix : PixMap)
  | err (msg : String) (pix : PixMap)
  | panicked (msg : String)

/-- Whether a `put_pixels` call returned `Ok`. -/
def PutResult.isOk : PutResult → Bool
  | PutResult.ok _ => true
  | _ => false

/-- Whether a `put_pixels` call returned `Err`. -/
def PutResult.isErr : PutResult → Bool
  | PutResult.err _ _ => true
  | _ => false

/-- The error message of a `put_pixels` call (empty for `Ok`/panic). -/
def PutResult.errMsg : PutResult → String
  | PutResult.err m _ => m
  | _ => ""

/-- The raster after a `put_pixels` call (for the panic case the thread
is dead and no raster is observable; a zero raster stands in). -/
def PutResult.getPix : PutResult → PixMap
  | PutResult.ok p => p
  | PutResult.err _ p => p
  | PutResult.panicked _ => fun _ _ => (0, 0, 0)

/-- The `Image` struct of `src/vnc/mod.rs` (the `ImageMode::Rgb8` buffer
as a raster function plus its dimensions, and the session's
`PixelFormat`). -/
structure Image where
  pix : PixMap
  format : PixelFormat
  width : Nat
  height : Nat

/-- `Image::new`: a zero-initialised `width × height` RGB8 buffer. -/
def Image.new (format : PixelFormat) (width height : Nat) : Image :=
  ⟨fun _ _ => (0, 0, 0), format, width, height⟩

/-- Both loops of `Image::put_pixels` run with a fixed `bytes_per_pixel`,
starting at `rect.top` with `idx = 0`. -/
def runPut (img : Image) (rect : Rect) (pixels : List Nat) (bpp : Nat) : PutResult :=
  match putRowsAux img.format bpp pixels img.width img.height rect.left rect.width
      rect.height rect.top img.pix 0 with
  | LoopRes.ok pix _ => PutResult.ok pix
  | LoopRes.err m p => PutResult.err m p
  | LoopRes.panicked m => PutResult.panicked m

/-- `Image::put_pixels`: derive `bytes_per_pixel` from
`format.bits_per_pixel` (16 gives 2, 32 gives 4, anything else returns
`Err(Error::VncError("Invalid bits per pixel"))` before touching the
raster), then run the row/column loops. -/
def put_pixels (img : Image) (rect : Rect) (pixels : List Nat) : PutResult :=
  if img.format.bits_per_pixel = 16 then runPut img rect pixels 2
  else if img.format.bits_per_pixel = 32 then runPut img rect pixels 4
  else PutResult.err "Invalid bits per pixel" img.pix

/-- The raster described by the spec's framebuffer-assembly paragraph
(the refinement target for `put_pixels`, written from the spec's words):
inside the rectangle the pixel at `(left + x, top + y)` is the decoding
of the sample at index `y * width + x` of the flat buffer; every raster
pixel outside the rectangle is left unchanged. -/
def assembled_spec (img : Image) (rect : Rect) (pixels : List Nat) (bpp : Nat) : PixMap :=
  fun a b =>
    if rect.left ≤ a ∧ a < rect.left + rect.width ∧ rect.top ≤ b ∧ b < rect.top + rect.height then
      decodeColor img.format
        ((pixels.drop (((b - rect.top) * rect.width + (a - rect.left)) * bpp)).take bpp)
    else img.pix a b

/-- `vnc::client::Event`, restricted to the shapes `vnc_poll`
distinguishes: a disconnect (with or without an error payload), a pixel
rectangle, the end-of-frame marker, and every other event kind
(collapsed into `Other` with a description). -/
inductive Event where
  | Disconnected (payload : Option String)
  | PutPixels (rect : Rect) (pixels : List Nat)
  | EndOfFrame
  | Other (desc : String)
deriving DecidableEq

/-- Result of `vnc_poll`: `Ok(())` with the final raster, a propagated
decode `Err`, a panic, or `polling` when the modelled event stream is
exhausted without a terminal event (the real loop then blocks in
`poll_iter` forever). -/
inductive PollRes where
  | ok (pix : PixMap)
  | err (msg : String) (pix : PixMap)
  | panicked (msg : String)
  | polling (pix : PixMap)

/-- `vnc_poll`: `Disconnected(None)` and `EndOfFrame` return `Ok(())`;
`PutPixels` decodes into the framebuffer and keeps polling unless
`put_pixels` fails; every other event is logged and polling
continues. -/
def vnc_poll (img : Image) : List Event → PollRes
  | [] => PollRes.polling img.pix
  | e :: rest =>
    match e with
    | Event.Disconnected Option.none => PollRes.ok img.pix
    | Event.PutPixels r px =>
      match put_pixels img r px with
      | PutResult.ok p => vnc_poll { img with pix := p } rest
      | PutResult.err m p => PollRes.err m p
      | PutResult.panicked m => PollRes.panicked m
    | Event.EndOfFrame => PollRes.ok img.pix
    | Event.Disconnected (Option.some _) => vnc_poll img rest
    | Event.Other _ => vnc_poll img rest

/-- `argparse::Mode`. -/
inductive Mode where
  | Auto
  | Web
  | Rdp
  | Vnc
deriving DecidableEq, BEq

/-- `Mode::selected`: `self == &Auto || self == &filter || filter == Auto`. -/
def Mode.selected (self : Mode) (filter : Mode) : Bool :=
  self == Mode.Auto || self == filter || filter == Mode.Auto

/-- `parsing::Target`: a resolved socket address or a URL (payloads
modelled by their display strings). -/
inductive Target where
  | Address (addr : String)
  | Url (url : String)
deriving DecidableEq

/-- The `Display` form of a target. -/
def Target.toString : Target → String
  | Target.Address a => a
  | Target.Url u => u

/-- Whether a target is the `Address` variant. -/
def Target.isAddress : Target → Bool
  | Target.Address _ => true
  | Target.Url _ => false

/-- Modelled from the spec: `util::target_to_filename` is not among the
provided sources.  Per the spec (sections 3 and 6) the canonical name is
the target's string form with every character unsafe for filenames
deterministically replaced by a safe substitute. -/
def target_to_filename (t : Target) : String :=
  String.map (fun c => if c.isAlphanum then c else '_') (Target.toString t)

/-- `vnc::client::AuthMethod` (the unhandled wire values collapsed into
`Unknown`). -/
inductive AuthMethod where
  | NoAuth
  | Password
  | Unknown (code : Nat)
deriving DecidableEq

/-- `vnc::client::AuthChoice`, restricted to the one choice the code can
make. -/
inductive AuthChoice where
  | NoAuth
deriving DecidableEq

/-- The authentication callback passed to `Client::from_tcp_stream`:
scan the offered methods, return `Some(AuthChoice::None)` at the first
`AuthMethod::None`, and after an unsuccessful scan warn
`"AuthMethod::None may not be supported"` and return `None`.  The second
component collects the warnings the callback logs. -/
def choose_auth (methods : List AuthMethod) : Option AuthChoice × List String :=
  match methods with
  | [] => (Option.none, ["AuthMethod::None may not be supported"])
  | AuthMethod.NoAuth :: _ => (Option.some AuthChoice.NoAuth, [])
  | _ :: rest => choose_auth rest

/-- `ThreadStatus` (crate root): the single-value completion signal. -/
inductive ThreadStatus where
  | Complete
deriving DecidableEq

/-- How far a `vnc_capture` call got: it returned `Ok(())`, returned an
`Err`, blocked forever waiting for events, or its thread panicked. -/
inductive SessionOutcome where
  | ok
  | err (msg : String)
  | hang
  | panicked (msg : String)
deriving DecidableEq

/-- Whether `vnc_capture` actually returned (with `Ok` or `Err`). -/
def SessionOutcome.isOkOrErr : SessionOutcome → Bool
  | SessionOutcome.ok => true
  | SessionOutcome.err _ => true
  | _ => false

/-- The environment one `vnc_capture` call runs against: whether the TCP
connect succeeds, what the server offers and reports during the
handshake, the polled event stream, and whether the image save and the
report-channel send succeed. -/
structure VncServer where
  connect_ok : Bool
  connect_err : String
  auth_methods : List AuthMethod
  handshake_ok : Bool
  name : String
  width : Nat
  height : Nat
  set_encodings_ok : Bool
  request_update_ok : Bool
  format : PixelFormat
  events : List Event
  save_ok : Bool
  report_send_ok : Bool

/-- Externally visible effects of one `vnc_capture` call: whether
`TcpStream::connect` was reached, the files written, and the
`(target, file)` report messages delivered on the reporter channel. -/
structure CaptureTrace where
  connect_attempted : Bool
  saved : List String
  reports : List (String × String)
deriving DecidableEq

/-- `vnc_capture`: reject `Target::Url` before connecting; connect;
perform the handshake with the `choose_auth` callback (a `None` choice
fails client setup); set encodings and request a full-screen update;
poll events into a fresh `width × height` image; on `Ok` from the poll
loop save the image as `<output_dir>/vnc/<canonical>.png` and send a
`VncOutput { target, file: "vnc/<canonical>.png" }` report message.
Every failure returns `Err` through `?` at the corresponding step. -/
def vnc_capture (target : Target) (output_dir : String) (srv : VncServer) :
    SessionOutcome × CaptureTrace :=
  match target with
  | Target.Url _ =>
    (SessionOutcome.err ("Invalid VNC target: " ++ Target.toString target),
      ⟨false, [], []⟩)
  | Target.Address _ =>
    if srv.connect_ok then
      match (choose_auth srv.auth_methods).1 with
      | Option.none => (SessionOutcome.err "no authentication method available", ⟨true, [], []⟩)
      | Option.some _ =>
        if srv.handshake_ok then
          if srv.set_encodings_ok then
            if srv.request_update_ok then
              match vnc_poll (Image.new srv.format srv.width srv.height) srv.events with
              | PollRes.err m _ => (SessionOutcome.err m, ⟨true, [], []⟩)
              | PollRes.panicked m => (SessionOutcome.panicked m, ⟨true, [], []⟩)
              | PollRes.polling _ => (SessionOutcome.hang, ⟨true, [], []⟩)
              | PollRes.ok _ =>
                let filename := target_to_filename target ++ ".png"
                let relative := "vnc/" ++ filename
                let filepath := output_dir ++ "/" ++ relative
                if srv.save_ok then
                  if srv.report_send_ok then
                    (SessionOutcome.ok,
                      ⟨true, [filepath], [(Target.toString target, relative)]⟩)
                  else (SessionOutcome.err "sending on a closed channel", ⟨true, [filepath], []⟩)
                else (SessionOutcome.err "image save failed", ⟨true, [], []⟩)
            else (SessionOutcome.err "request_update failed", ⟨true, [], []⟩)
          else (SessionOutcome.err "set_encodings failed", ⟨true, [], []⟩)
        else (SessionOutcome.err "protocol handshake failed", ⟨true, [], []⟩)
    else (SessionOutcome.err srv.connect_err, ⟨true, [], []⟩)

/-- `vnc::capture`: run `vnc_capture`; an `Err` is downgraded to the
warning `"VNC error: ..."`; afterwards send exactly one
`ThreadStatus::Complete` on the dispatcher channel.  The components are
the warnings logged and the completion signals sent (a hung or panicked
session never reaches the send). -/
def capture (target : Target) (output_dir : String) (srv : VncServer) :
    List String × List ThreadStatus :=
  match (vnc_capture target output_dir srv).1 with
  | SessionOutcome.ok => ([], [ThreadStatus.Complete])
  | SessionOutcome.err m => (["VNC error: " ++ m], [ThreadStatus.Complete])
  | SessionOutcome.hang => ([], [])
  | SessionOutcome.panicked _ => ([], [])

/-- The 16-bpp/16-depth little-endian format of the spec's worked
example (`red_max 31 @ shift 11`, `green_max 63 @ shift 5`,
`blue_max 31 @ shift 0`). -/
def fmt1616 : PixelFormat := ⟨16, 16, false, true, 31, 63, 31, 11, 5, 0⟩

/-- The 8-bpp/8-depth palette format of the source's doc comment
(`Xvfb -screen 0 800x600x8`), outside the supported set. -/
def fmt8 : PixelFormat := ⟨8, 8, false, false, 0, 0, 0, 0, 0, 0⟩

/-- A 16-bpp/16-depth format whose red channel max 257 is not of the
form `2 ^ n - 1`: the promoted red value can exceed 255, so the `u8`
conversion in `pixel_to_rgb` can fail mid-rectangle. -/
def fmtC6 : PixelFormat := ⟨16, 16, false, true, 257, 3, 3, 0, 0, 0⟩

/-- A fresh 2-by-1 image in the format `fmtC6`. -/
def imgC6 : Image := Image.new fmtC6 2 1

/-- The full rectangle of `imgC6`. -/
def rectC6 : Rect := ⟨0, 0, 2, 1⟩

/-- Two encoded samples for `fmtC6`: `[1, 0]` decodes to `(64, 64, 64)`
and `[1, 1]` fails the `u8` conversion. -/
def pixelsC6 : List Nat := [1, 0, 1, 1]

/-- A fresh 2-by-2 image in the format `fmt1616`. -/
def imgW : Image := Image.new fmt1616 2 2

/-- The top-left 1-by-1 rectangle. -/
def rectW : Rect := ⟨0, 0, 1, 1⟩

/-- An environment in which every step of `vnc_capture` succeeds. -/
def srvOK : VncServer :=
  ⟨true, "connection refused", [AuthMethod.NoAuth], true, "testbed", 2, 2, true, true,
    fmt1616, [Event.EndOfFrame], true, true⟩

/-- Modelled from the spec: the filesystem side of the Finalizing step.
The provided sources contain only the `save(&filepath)?` call
(`src/vnc/mod.rs:345`); the creation of the output directories happens
in repository code outside `src/`.  Per spec section 4.2 the raster is
encoded at the deterministic path `<output-dir>/vnc/<canonical>.png`,
"creating parent directories as needed": given the set of directories
that already exist, the parent directory `<output-dir>/vnc` is created
exactly when it is missing, and the file is written inside it.  The
result is the list of directories created and the path of the file
written. -/
def save_with_dirs (output_dir : String) (t : Target) (existing_dirs : List String) :
    List String × String :=
  let parent := output_dir ++ "/" ++ "vnc"
  (if parent ∈ existing_dirs then [] else [parent],
    output_dir ++ "/" ++ ("vnc/" ++ (target_to_filename t ++ ".png")))

/-- `count_ones` of an `n`-bit all-ones mask is `n` (for the channel
widths that fit in a byte). -/
lemma countOnes_pow_sub_one (k : Nat) (hk : k ≤ 8) : countOnes (2 ^ k - 1) = k := by
  interval_cases k <;> decide

/-- Promoting an `n`-bit channel value to the top of a byte stays below
256. -/
lemma shiftLeft_promote_le (v n : Nat) (hv : v ≤ 2 ^ n - 1) (hn : n ≤ 8) :
    v <<< (8 - n) ≤ 255 := by
  interval_cases n <;> simp only [Nat.shiftLeft_eq] at * <;> norm_num at hv ⊢ <;> omega

/-- Evaluation of the 16-bpp decode arm on a well-formed format: each
channel is extracted by shift-and-mask and promoted by
`8 - count_ones(max)`. -/
lemma pixel16_eq (f : PixelFormat) (b0 b1 nr ng nb : Nat)
    (hr : f.red_max = 2 ^ nr - 1) (hg : f.green_max = 2 ^ ng - 1) (hb : f.blue_max = 2 ^ nb - 1)
    (hnr : nr ≤ 8) (hng : ng ≤ 8) (hnb : nb ≤ 8)
    (hrs : f.red_shift < 16) (hgs : f.green_shift < 16) (hbs : f.blue_shift < 16) :
    pixel16 f [b0, b1] =
      PixelResult.ok
        (((u16_from_bytes f.big_endian b0 b1 >>> f.red_shift) &&& f.red_max) <<< (8 - nr))
        (((u16_from_bytes f.big_endian b0 b1 >>> f.green_shift) &&& f.green_max) <<< (8 - ng))
        (((u16_from_bytes f.big_endian b0 b1 >>> f.blue_shift) &&& f.blue_max) <<< (8 - nb)) := by
  have hA : ((u16_from_bytes f.big_endian b0 b1 >>> f.red_shift) &&& (2 ^ nr - 1)) <<< (8 - nr)
      ≤ 255 := shiftLeft_promote_le _ _ Nat.and_le_right hnr
  have hB : ((u16_from_bytes f.big_endian b0 b1 >>> f.green_shift) &&& (2 ^ ng - 1)) <<< (8 - ng)
      ≤ 255 := shiftLeft_promote_le _ _ Nat.and_le_right hng
  have hC : ((u16_from_bytes f.big_endian b0 b1 >>> f.blue_shift) &&& (2 ^ nb - 1)) <<< (8 - nb)
      ≤ 255 := shiftLeft_promote_le _ _ Nat.and_le_right hnb
  have hAm := Nat.mod_le
    ((((u16_from_bytes f.big_endian b0 b1 >>> f.red_shift) &&& (2 ^ nr - 1)) <<< (8 - nr))) 65536
  have hBm := Nat.mod_le
    ((((u16_from_bytes f.big_endian b0 b1 >>> f.green_shift) &&& (2 ^ ng - 1)) <<< (8 - ng))) 65536
  have hCm := Nat.mod_le
    ((((u16_from_bytes f.big_endian b0 b1 >>> f.blue_shift) &&& (2 ^ nb - 1)) <<< (8 - nb))) 65536
  simp only [pixel16, hr, hg, hb, countOnes_pow_sub_one nr hnr, countOnes_pow_sub_one ng hng,
    countOnes_pow_sub_one nb hnb]
  split_ifs with h1 h2 h3 h4 h5 h6 h7 h8 h9
  · omega
  · omega
  · omega
  · omega
  · omega
  · omega
  · omega
  · omega
  · omega
  · rw [Nat.mod_eq_of_lt (by omega), Nat.mod_eq_of_lt (by omega), Nat.mod_eq_of_lt (by omega)]

/-- Evaluation of the 32-bpp decode arm on a well-formed format: each
channel is extracted by shift-and-mask, with no promotion. -/
lemma pixel32_eq (f : PixelFormat) (b0 b1 b2 b3 nr ng nb : Nat)
    (hr : f.red_max = 2 ^ nr - 1) (hg : f.green_max = 2 ^ ng - 1) (hb : f.blue_max = 2 ^ nb - 1)
    (hnr : nr ≤ 8) (hng : ng ≤ 8) (hnb : nb ≤ 8)
    (hrs : f.red_shift < 32) (hgs : f.green_shift < 32) (hbs : f.blue_shift < 32) :
    pixel32 f [b0, b1, b2, b3] =
      PixelResult.ok
        ((u32_from_bytes f.big_endian b0 b1 b2 b3 >>> f.red_shift) &&& f.red_max)
        ((u32_from_bytes f.big_endian b0 b1 b2 b3 >>> f.green_shift) &&& f.green_max)
        ((u32_from_bytes f.big_endian b0 b1 b2 b3 >>> f.blue_shift) &&& f.blue_max) := by
  have h28 : (2 : Nat) ^ nr ≤ 2 ^ 8 := Nat.pow_le_pow_right (by norm_num) hnr
  have h28g : (2 : Nat) ^ ng ≤ 2 ^ 8 := Nat.pow_le_pow_right (by norm_num) hng
  have h28b : (2 : Nat) ^ nb ≤ 2 ^ 8 := Nat.pow_le_pow_right (by norm_num) hnb
  have hA : (u32_from_bytes f.big_endian b0 b1 b2 b3 >>> f.red_shift) &&& (2 ^ nr - 1) ≤ 255 := by
    have := Nat.and_le_right (n := u32_from_bytes f.big_endian b0 b1 b2 b3 >>> f.red_shift)
      (m := 2 ^ nr - 1)
    have h256 : (2 : Nat) ^ 8 = 256 := by norm_num
    omega
  have hB : (u32_from_bytes f.big_endian b0 b1 b2 b3 >>> f.green_shift) &&& (2 ^ ng - 1) ≤ 255 := by
    have := Nat.and_le_right (n := u32_from_bytes f.big_endian b0 b1 b2 b3 >>> f.green_shift)
      (m := 2 ^ ng - 1)
    have h256 : (2 : Nat) ^ 8 = 256 := by norm_num
    omega
  have hC : (u32_from_bytes f.big_endian b0 b1 b2 b3 >>> f.blue_shift) &&& (2 ^ nb - 1) ≤ 255 := by
    have := Nat.and_le_right (n := u32_from_bytes f.big_endian b0 b1 b2 b3 >>> f.blue_shift)
      (m := 2 ^ nb - 1)
    have h256 : (2 : Nat) ^ 8 = 256 := by norm_num
    omega
  simp only [pixel32, hr, hg, hb]
  split_ifs with h1 h2 h3 h4 h5 h6
  · omega
  · omega
  · omega
  · omega
  · omega
  · omega
  · rfl

/-- C1: the claim says `pixel_to_rgb` on a format outside the supported
set yields an `Err` value and never panics.  Evaluating the code at the
8-bpp/8-depth format shows the decode path executes
`panic!("Unsupported colour depth ...")` instead; only the
`put_pixels`-level `bits_per_pixel` check (second conjunct) returns the
claimed `Err(VncError("Invalid bits per pixel"))`. -/
theorem c1_pixel_to_rgb_panics_on_unsupported_depth :
    pixel_to_rgb fmt8 [0] = PixelResult.panicked "Unsupported colour depth" ∧
    put_pixels (Image.new fmt8 1 1) ⟨0, 0, 1, 1⟩ [0] =
      PutResult.err "Invalid bits per pixel" (Image.new fmt8 1 1).pix := by
  exact ⟨rfl, rfl⟩

/-- C2: for every supported, well-formed `PixelFormat` (channel maxes of
the form `2 ^ n - 1` with `n ≤ 8`, shifts inside the pixel word) and a
sample of the right length, `pixel_to_rgb` reinterprets the bytes as an
unsigned integer respecting the endianness flag, extracts each channel
as `(value >> channel_shift) & channel_max`, and for the 16-bpp formats
left-shifts each channel by `8 - popcount(channel_max)` while the
32-bpp/24-depth format gets no shift. -/
theorem c2_pixel_decode_formula :
    (∀ (f : PixelFormat) (b0 b1 nr ng nb : Nat),
      f.bits_per_pixel = 16 → (f.depth = 16 ∨ f.depth = 15) →
      f.red_max = 2 ^ nr - 1 → f.green_max = 2 ^ ng - 1 → f.blue_max = 2 ^ nb - 1 →
      nr ≤ 8 → ng ≤ 8 → nb ≤ 8 →
      f.red_shift < 16 → f.green_shift < 16 → f.blue_shift < 16 →
      pixel_to_rgb f [b0, b1] =
        PixelResult.ok
          (((u16_from_bytes f.big_endian b0 b1 >>> f.red_shift) &&& f.red_max) <<< (8 - nr))
          (((u16_from_bytes f.big_endian b0 b1 >>> f.green_shift) &&& f.green_max) <<< (8 - ng))
          (((u16_from_bytes f.big_endian b0 b1 >>> f.blue_shift) &&& f.blue_max) <<< (8 - nb))) ∧
    (∀ (f : PixelFormat) (b0 b1 b2 b3 nr ng nb : Nat),
      f.bits_per_pixel = 32 → f.depth = 24 →
      f.red_max = 2 ^ nr - 1 → f.green_max = 2 ^ ng - 1 → f.blue_max = 2 ^ nb - 1 →
      nr ≤ 8 → ng ≤ 8 → nb ≤ 8 →
      f.red_shift < 32 → f.green_shift < 32 → f.blue_shift < 32 →
      pixel_to_rgb f [b0, b1, b2, b3] =
        PixelResult.ok
          ((u32_from_bytes f.big_endian b0 b1 b2 b3 >>> f.red_shift) &&& f.red_max)
          ((u32_from_bytes f.big_endian b0 b1 b2 b3 >>> f.green_shift) &&& f.green_max)
          ((u32_from_bytes f.big_endian b0 b1 b2 b3 >>> f.blue_shift) &&& f.blue_max)) := by
  constructor
  · intro f b0 b1 nr ng nb hbpp hd hr hg hb hnr hng hnb hrs hgs hbs
    rw [pixel_to_rgb, if_pos]
    · exact pixel16_eq f b0 b1 nr ng nb hr hg hb hnr hng hnb hrs hgs hbs
    · rcases hd with hd | hd
      · exact Or.inl ⟨hbpp, hd⟩
      · exact Or.inr ⟨hbpp, hd⟩
  · intro f b0 b1 b2 b3 nr ng nb hbpp hd hr hg hb hnr hng hnb hrs hgs hbs
    rw [pixel_to_rgb, if_neg (by omega), if_pos ⟨hbpp, hd⟩]
    exact pixel32_eq f b0 b1 b2 b3 nr ng nb hr hg hb hnr hng hnb hrs hgs hbs

/-- Witness for C2 at the spec's worked example: bytes `FF FF` decode to
`(248, 252, 248)` and bytes `00 00` to `(0, 0, 0)` under `fmt1616`. -/
theorem c2_pixel_decode_formula_witness :
    pixel_to_rgb fmt1616 [255, 255] = PixelResult.ok 248 252 248 ∧
    pixel_to_rgb fmt1616 [0, 0] = PixelResult.ok 0 0 0 := by
  constructor
  · have h := c2_pixel_decode_formula.1 fmt1616 255 255 5 6 5 rfl (Or.inl rfl)
      (by decide) (by decide) (by decide) (by decide) (by decide) (by decide)
      (by decide) (by decide) (by decide)
    rw [h]
    decide
  · have h := c2_pixel_decode_formula.1 fmt1616 0 0 5 6 5 rfl (Or.inl rfl)
      (by decide) (by decide) (by decide) (by decide) (by decide) (by decide)
      (by decide) (by decide) (by decide)
    rw [h]
    decide

/-- C7: the mode filter is reflexive and Auto-absorbing on both sides,
and false for distinct non-Auto modes. -/
theorem c7_mode_selected (X Y : Mode) :
    Mode.Auto.selected X = true ∧ X.selected Mode.Auto = true ∧ X.selected X = true ∧
    (X ≠ Mode.Auto → Y ≠ Mode.Auto → X ≠ Y → X.selected Y = false) := by
  cases X <;> cases Y <;> decide

/-- Witness for C7 at `X = Web`, `Y = Rdp`. -/
theorem c7_mode_selected_witness : Mode.Web.selected Mode.Rdp = false :=
  (c7_mode_selected Mode.Web Mode.Rdp).2.2.2 (by decide) (by decide) (by decide)

/-- C8: the authentication chooser returns the no-authentication choice
exactly when `AuthMethod::None` is among the offered methods, and
otherwise warns and returns `None`. -/
theorem c8_choose_auth (ms : List AuthMethod) :
    ((choose_auth ms).1 = Option.some AuthChoice.NoAuth ↔ AuthMethod.NoAuth ∈ ms) ∧
    ((choose_auth ms).1 = Option.none ↔ AuthMethod.NoAuth ∉ ms) ∧
    (AuthMethod.NoAuth ∉ ms →
      (choose_auth ms).2 = ["AuthMethod::None may not be supported"]) := by
  induction ms with
  | nil => refine ⟨by simp [choose_auth], by simp [choose_auth], fun _ => rfl⟩
  | cons m rest ih =>
    cases m with
    | NoAuth => refine ⟨by simp [choose_auth], by simp [choose_auth], fun hmem => ?_⟩
                exact absurd (List.mem_cons_self _ _) hmem
    | Password =>
      refine ⟨?_, ?_, ?_⟩
      · rw [show choose_auth (AuthMethod.Password :: rest) = choose_auth rest from rfl]
        rw [ih.1]
        simp
      · rw [show choose_auth (AuthMethod.Password :: rest) = choose_auth rest from rfl]
        rw [ih.2.1]
        simp
      · intro hmem
        rw [show choose_auth (AuthMethod.Password :: rest) = choose_auth rest from rfl]
        exact ih.2.2 (fun hr => hmem (List.mem_cons_of_mem _ hr))
    | Unknown code =>
      refine ⟨?_, ?_, ?_⟩
      · rw [show choose_auth (AuthMethod.Unknown code :: rest) = choose_auth rest from rfl]
        rw [ih.1]
        simp
      · rw [show choose_auth (AuthMethod.Unknown code :: rest) = choose_auth rest from rfl]
        rw [ih.2.1]
        simp
      · intro hmem
        rw [show choose_auth (AuthMethod.Unknown code :: rest) = choose_auth rest from rfl]
        exact ih.2.2 (fun hr => hmem (List.mem_cons_of_mem _ hr))

/-- Witness for C8: with only `Password` offered the chooser warns and
returns no choice; with `None` offered it picks it. -/
theorem c8_choose_auth_witness :
    (choose_auth [AuthMethod.Password]).2 = ["AuthMethod::None may not be supported"] ∧
    (choose_auth [AuthMethod.NoAuth]).1 = Option.some AuthChoice.NoAuth := by
  constructor
  · exact (c8_choose_auth [AuthMethod.Password]).2.2 (by decide)
  · exact (c8_choose_auth [AuthMethod.NoAuth]).1.mpr (by decide)

/-- C3: whether `vnc_capture` returns `Ok` or `Err`, `capture` sends
exactly one `ThreadStatus::Complete` on the dispatcher channel, and an
`Err` (including a failed report-channel send inside the session) is
downgraded to the warning `"VNC error: ..."` before the signal. -/
theorem c3_capture_always_signals_complete (t : Target) (od : String) (srv : VncServer) :
    ((vnc_capture t od srv).1.isOkOrErr = true →
      (capture t od srv).2 = [ThreadStatus.Complete]) ∧
    (∀ m, (vnc_capture t od srv).1 = SessionOutcome.err m →
      (capture t od srv).1 = ["VNC error: " ++ m] ∧
        (capture t od srv).2 = [ThreadStatus.Complete]) ∧
    ((vnc_capture t od srv).1 = SessionOutcome.ok →
      (capture t od srv).1 = [] ∧ (capture t od srv).2 = [ThreadStatus.Complete]) := by
  cases h : (vnc_capture t od srv).1 with
  | ok => exact ⟨fun _ => by simp [capture, h], fun m hm => by simp [h] at hm,
      fun _ => by simp [capture, h]⟩
  | err m =>
    refine ⟨fun _ => by simp [capture, h], fun m' hm' => ?_, fun ho => by simp [h] at ho⟩
    have : m = m' := (SessionOutcome.err.injEq m m').mp hm'
    subst this
    simp [capture, h]
  | hang => exact ⟨fun hio => by simp [SessionOutcome.isOkOrErr, h] at hio,
      fun m hm => by simp [h] at hm, fun ho => by simp [h] at ho⟩
  | panicked m => exact ⟨fun hio => by simp [SessionOutcome.isOkOrErr, h] at hio,
      fun m' hm => by simp [h] at hm, fun ho => by simp [h] at ho⟩

/-- Witness for C3: a URL target makes `vnc_capture` fail, and the
session still logs the warning and sends exactly one completion
signal. -/
theorem c3_capture_always_signals_complete_witness :
    (capture (Target.Url "http://example.com") "output" srvOK).1 =
      ["VNC error: " ++ "Invalid VNC target: http://example.com"] ∧
    (capture (Target.Url "http://example.com") "output" srvOK).2 = [ThreadStatus.Complete] :=
  (c3_capture_always_signals_complete (Target.Url "http://example.com") "output" srvOK).2.1
    "Invalid VNC target: http://example.com" rfl

/-- In the poll loop, `Ok(())` is only ever returned by the
`EndOfFrame` and `Disconnected(None)` arms, so a successful poll run
contains such a terminal event. -/
lemma vnc_poll_ok_mem (events : List Event) :
    ∀ (img : Image) (p : PixMap), vnc_poll img events = PollRes.ok p →
      Event.EndOfFrame ∈ events ∨ Event.Disconnected Option.none ∈ events := by
  induction events with
  | nil => intro img p h; simp [vnc_poll] at h
  | cons e rest ih =>
    intro img p h
    cases e with
    | Disconnected payload =>
      cases payload with
      | none => exact Or.inr (List.mem_cons_self _ _)
      | some s =>
        have h' : vnc_poll img rest = PollRes.ok p := h
        rcases ih img p h' with h2 | h2
        · exact Or.inl (List.mem_cons_of_mem _ h2)
        · exact Or.inr (List.mem_cons_of_mem _ h2)
    | PutPixels r px =>
      have h' : (match put_pixels img r px with
          | PutResult.ok p' => vnc_poll { img with pix := p' } rest
          | PutResult.err m p' => PollRes.err m p'
          | PutResult.panicked m => PollRes.panicked m) = PollRes.ok p := h
      cases hpp : put_pixels img r px with
      | ok p' =>
        rw [hpp] at h'
        rcases ih { img with pix := p' } p h' with h2 | h2
        · exact Or.inl (List.mem_cons_of_mem _ h2)
        · exact Or.inr (List.mem_cons_of_mem _ h2)
      | err m p' => rw [hpp] at h'; simp at h'
      | panicked m => rw [hpp] at h'; simp at h'
    | EndOfFrame => exact Or.inl (List.mem_cons_self _ _)
    | Other s =>
      have h' : vnc_poll img rest = PollRes.ok p := h
      rcases ih img p h' with h2 | h2
      · exact Or.inl (List.mem_cons_of_mem _ h2)
      · exact Or.inr (List.mem_cons_of_mem _ h2)

/-- C4: the poll loop returns `Ok` exactly on an end-of-frame marker or
a payload-free disconnect (and only when such an event occurs); a pixel
rectangle is never terminal — on a successful decode polling continues
with the updated framebuffer, and a decode failure fails the session —
and any other event (including a disconnect that carries an error) is
logged and polling continues. -/
theorem c4_vnc_poll_termination (img : Image) :
    (∀ rest, vnc_poll img (Event.EndOfFrame :: rest) = PollRes.ok img.pix) ∧
    (∀ rest, vnc_poll img (Event.Disconnected Option.none :: rest) = PollRes.ok img.pix) ∧
    (∀ r px rest, (put_pixels img r px).isOk = true →
      vnc_poll img (Event.PutPixels r px :: rest) =
        vnc_poll { img with pix := (put_pixels img r px).getPix } rest) ∧
    (∀ r px rest, (put_pixels img r px).isErr = true →
      vnc_poll img (Event.PutPixels r px :: rest) =
        PollRes.err ((put_pixels img r px).errMsg) ((put_pixels img r px).getPix)) ∧
    (∀ s rest, vnc_poll img (Event.Other s :: rest) = vnc_poll img rest) ∧
    (∀ s rest, vnc_poll img (Event.Disconnected (Option.some s) :: rest) = vnc_poll img rest) ∧
    (∀ events p, vnc_poll img events = PollRes.ok p →
      Event.EndOfFrame ∈ events ∨ Event.Disconnected Option.none ∈ events) := by
  refine ⟨fun rest => rfl, fun rest => rfl, ?_, ?_, fun s rest => rfl, fun s rest => rfl,
    fun events p h => vnc_poll_ok_mem events img p h⟩
  · intro r px rest hok
    cases hpp : put_pixels img r px with
    | ok p' => simp [vnc_poll, hpp, PutResult.getPix]
    | err m p' => rw [hpp] at hok; simp [PutResult.isOk] at hok
    | panicked m => rw [hpp] at hok; simp [PutResult.isOk] at hok
  · intro r px rest herr
    cases hpp : put_pixels img r px with
    | ok p' => rw [hpp] at herr; simp [PutResult.isErr] at herr
    | err m p' => simp [vnc_poll, hpp, PutResult.errMsg, PutResult.getPix]
    | panicked m => rw [hpp] at herr; simp [PutResult.isErr] at herr

/-- Witness for C4: a successfully decoded pixel rectangle is not
terminal — the loop keeps polling with the updated framebuffer. -/
theorem c4_vnc_poll_termination_witness :
    vnc_poll imgW [Event.PutPixels rectW [255, 255], Event.EndOfFrame] =
      vnc_poll { imgW with pix := (put_pixels imgW rectW [255, 255]).getPix }
        [Event.EndOfFrame] :=
  (c4_vnc_poll_termination imgW).2.2.1 rectW [255, 255] [Event.EndOfFrame] (by decide)

/-- A `vnc_capture` call that returns `Ok(())` took the full success
path: it connected, saved exactly the file
`<output_dir>/vnc/<canonical>.png` and sent exactly one report message
carrying the relative path `vnc/<canonical>.png`. -/
lemma vnc_capture_ok_trace (t : Target) (od : String) (srv : VncServer)
    (h : (vnc_capture t od srv).1 = SessionOutcome.ok) :
    vnc_capture t od srv =
      (SessionOutcome.ok,
        ⟨true, [od ++ "/" ++ ("vnc/" ++ (target_to_filename t ++ ".png"))],
          [(Target.toString t, "vnc/" ++ (target_to_filename t ++ ".png"))]⟩) := by
  cases t with
  | Url u => simp [vnc_capture] at h
  | Address a =>
    cases hc : srv.connect_ok with
    | false => simp [vnc_capture, hc] at h
    | true =>
      cases hca : (choose_auth srv.auth_methods).1 with
      | none => simp [vnc_capture, hc, hca] at h
      | some c =>
        cases hh : srv.handshake_ok with
        | false => simp [vnc_capture, hc, hca, hh] at h
        | true =>
          cases hs : srv.set_encodings_ok with
          | false => simp [vnc_capture, hc, hca, hh, hs] at h
          | true =>
            cases hru : srv.request_update_ok with
            | false => simp [vnc_capture, hc, hca, hh, hs, hru] at h
            | true =>
              cases hp : vnc_poll (Image.new srv.format srv.width srv.height) srv.events with
              | err m p => simp [vnc_capture, hc, hca, hh, hs, hru, hp] at h
              | panicked m => simp [vnc_capture, hc, hca, hh, hs, hru, hp] at h
              | polling p => simp [vnc_capture, hc, hca, hh, hs, hru, hp] at h
              | ok p =>
                cases hsv : srv.save_ok with
                | false => simp [vnc_capture, hc, hca, hh, hs, hru, hp, hsv] at h
                | true =>
                  cases hrp : srv.report_send_ok with
                  | false => simp [vnc_capture, hc, hca, hh, hs, hru, hp, hsv, hrp] at h
                  | true => simp [vnc_capture, hc, hca, hh, hs, hru, hp, hsv, hrp]

/-- C9: a successful finalization saves the raster exactly at
`<output-dir>/vnc/<canonical-target-name>.png` — the very file the
Finalizing step writes after ensuring its parent directory exists: the
parent `<output-dir>/vnc` is created exactly when it is missing and
afterwards always exists — and the success report message carries the
relative path `vnc/<canonical-target-name>.png`, where the canonical
name is a deterministic function of the target (two successful runs for
the same target use the same path). -/
theorem c9_saved_path (t : Target) (od : String) (srv srv' : VncServer) (dirs : List String) :
    ((vnc_capture t od srv).1 = SessionOutcome.ok →
      (vnc_capture t od srv).2.saved = [(save_with_dirs od t dirs).2] ∧
      (vnc_capture t od srv).2.saved =
        [od ++ "/" ++ ("vnc/" ++ (target_to_filename t ++ ".png"))] ∧
      (vnc_capture t od srv).2.reports =
        [(Target.toString t, "vnc/" ++ (target_to_filename t ++ ".png"))]) ∧
    ((od ++ "/" ++ "vnc") ∈ dirs → (save_with_dirs od t dirs).1 = []) ∧
    ((od ++ "/" ++ "vnc") ∉ dirs → (save_with_dirs od t dirs).1 = [od ++ "/" ++ "vnc"]) ∧
    (od ++ "/" ++ "vnc") ∈ dirs ++ (save_with_dirs od t dirs).1 ∧
    ((vnc_capture t od srv).1 = SessionOutcome.ok →
      (vnc_capture t od srv').1 = SessionOutcome.ok →
      (vnc_capture t od srv).2.saved = (vnc_capture t od srv').2.saved) := by
  refine ⟨?_, ?_, ?_, ?_, ?_⟩
  · intro h
    rw [vnc_capture_ok_trace t od srv h]
    exact ⟨rfl, rfl, rfl⟩
  · intro hmem
    simp only [save_with_dirs, if_pos hmem]
  · intro hmem
    simp only [save_with_dirs, if_neg hmem]
  · by_cases hmem : (od ++ "/" ++ "vnc") ∈ dirs
    · exact List.mem_append_left _ hmem
    · refine List.mem_append_right _ ?_
      simp only [save_with_dirs, if_neg hmem]
      exact List.mem_singleton_self _
  · intro h h'
    rw [vnc_capture_ok_trace t od srv h, vnc_capture_ok_trace t od srv' h']

/-- Witness for C9 on a fully successful session, starting from a
filesystem with no directories: the parent directory is created, the
saved file is the one the Finalizing step writes, and the report
carries the relative path. -/
theorem c9_saved_path_witness :
    (vnc_capture (Target.Address "10.0.0.1:5900") "output" srvOK).2.saved =
      [(save_with_dirs "output" (Target.Address "10.0.0.1:5900") []).2] ∧
    (save_with_dirs "output" (Target.Address "10.0.0.1:5900") []).1 =
      ["output" ++ "/" ++ "vnc"] ∧
    ("output" ++ "/" ++ "vnc") ∈
      ([] : List String) ++ (save_with_dirs "output" (Target.Address "10.0.0.1:5900") []).1 ∧
    (vnc_capture (Target.Address "10.0.0.1:5900") "output" srvOK).2.reports =
      [(Target.toString (Target.Address "10.0.0.1:5900"),
        "vnc/" ++ (target_to_filename (Target.Address "10.0.0.1:5900") ++ ".png"))] := by
  refine ⟨?_, ?_, ?_, ?_⟩
  · exact ((c9_saved_path (Target.Address "10.0.0.1:5900") "output" srvOK srvOK []).1 rfl).1
  · exact (c9_saved_path (Target.Address "10.0.0.1:5900") "output" srvOK srvOK []).2.2.1
      (by simp)
  · exact (c9_saved_path (Target.Address "10.0.0.1:5900") "output" srvOK srvOK []).2.2.2.1
  · exact ((c9_saved_path (Target.Address "10.0.0.1:5900") "output" srvOK srvOK []).1 rfl).2.2

/-- C10: a URL target is rejected with a VNC error immediately — before
any connection attempt, report send or file write (the trace is empty
and `connect_attempted` is false) — and consequently only an `Address`
target can produce a successful VNC outcome. -/
theorem c10_url_rejected (u : String) (od : String) (srv : VncServer) (t : Target) :
    vnc_capture (Target.Url u) od srv =
      (SessionOutcome.err ("Invalid VNC target: " ++ u), ⟨false, [], []⟩) ∧
    ((vnc_capture t od srv).1 = SessionOutcome.ok → t.isAddress = true) := by
  constructor
  · rfl
  · intro h
    cases t with
    | Address a => rfl
    | Url u' => simp [vnc_capture] at h

/-- Witness for C10: a concrete URL target is rejected with the empty
trace, and a concrete fully successful address session exists. -/
theorem c10_url_rejected_witness :
    vnc_capture (Target.Url "https://example.com/") "output" srvOK =
      (SessionOutcome.err ("Invalid VNC target: " ++ "https://example.com/"),
        ⟨false, [], []⟩) ∧
    (Target.Address "10.0.0.1:5900").isAddress = true :=
  ⟨(c10_url_rejected "https://example.com/" "output" srvOK
      (Target.Address "10.0.0.1:5900")).1,
    (c10_url_rejected "https://example.com/" "output" srvOK
      (Target.Address "10.0.0.1:5900")).2 rfl⟩

/-- On a supported, well-formed 16-bpp format every two-byte sample
decodes successfully. -/
lemma pixel_to_rgb_ok_16 (f : PixelFormat) (nr ng nb : Nat)
    (hr : f.red_max = 2 ^ nr - 1) (hg : f.green_max = 2 ^ ng - 1) (hb : f.blue_max = 2 ^ nb - 1)
    (hnr : nr ≤ 8) (hng : ng ≤ 8) (hnb : nb ≤ 8)
    (hbpp : f.bits_per_pixel = 16) (hd : f.depth = 16 ∨ f.depth = 15)
    (hrs : f.red_shift < 16) (hgs : f.green_shift < 16) (hbs : f.blue_shift < 16) :
    ∀ l : List Nat, l.length = 2 → ∃ r g b, pixel_to_rgb f l = PixelResult.ok r g b := by
  intro l hl
  rcases l with _ | ⟨b0, l⟩
  · simp only [List.length_nil] at hl
    omega
  rcases l with _ | ⟨b1, l⟩
  · simp only [List.length_cons, List.length_nil] at hl
    omega
  rcases l with _ | ⟨c, l⟩
  · have hcond : (f.bits_per_pixel = 16 ∧ f.depth = 16) ∨
        (f.bits_per_pixel = 16 ∧ f.depth = 15) := by
      rcases hd with hd | hd
      · exact Or.inl ⟨hbpp, hd⟩
      · exact Or.inr ⟨hbpp, hd⟩
    exact ⟨_, _, _, by
      rw [pixel_to_rgb, if_pos hcond]
      exact pixel16_eq f b0 b1 nr ng nb hr hg hb hnr hng hnb hrs hgs hbs⟩
  · simp only [List.length_cons] at hl
    omega

/-- On a supported, well-formed 32-bpp format every four-byte sample
decodes successfully. -/
lemma pixel_to_rgb_ok_32 (f : PixelFormat) (nr ng nb : Nat)
    (hr : f.red_max = 2 ^ nr - 1) (hg : f.green_max = 2 ^ ng - 1) (hb : f.blue_max = 2 ^ nb - 1)
    (hnr : nr ≤ 8) (hng : ng ≤ 8) (hnb : nb ≤ 8)
    (hbpp : f.bits_per_pixel = 32) (hd : f.depth = 24)
    (hrs : f.red_shift < 32) (hgs : f.green_shift < 32) (hbs : f.blue_shift < 32) :
    ∀ l : List Nat, l.length = 4 → ∃ r g b, pixel_to_rgb f l = PixelResult.ok r g b := by
  intro l hl
  rcases l with _ | ⟨b0, l⟩
  · simp only [List.length_nil] at hl
    omega
  rcases l with _ | ⟨b1, l⟩
  · simp only [List.length_cons, List.length_nil] at hl
    omega
  rcases l with _ | ⟨b2, l⟩
  · simp only [List.length_cons, List.length_nil] at hl
    omega
  rcases l with _ | ⟨b3, l⟩
  · simp only [List.length_cons, List.length_nil] at hl
    omega
  rcases l with _ | ⟨c, l⟩
  · exact ⟨_, _, _, by
      rw [pixel_to_rgb, if_neg (by omega), if_pos ⟨hbpp, hd⟩]
      exact pixel32_eq f b0 b1 b2 b3 nr ng nb hr hg hb hnr hng hnb hrs hgs hbs⟩
  · simp only [List.length_cons] at hl
    omega

/-- Characterization of the inner column loop when every reachable
sample decodes: it returns `Ok`, advances `idx` by `cols * bpp`, writes
the decoded samples at row `y`, columns `x0 ≤ a < x0 + cols`, and leaves
every other raster entry unchanged. -/
lemma putRowAux_eq (f : PixelFormat) (bpp : Nat) (pixels : List Nat) (W H y : Nat)
    (hy : y < H) (_hbpp : 0 < bpp)
    (hdec : ∀ j, j + bpp ≤ pixels.length →
      ∃ r g b, pixel_to_rgb f ((pixels.drop j).take bpp) = PixelResult.ok r g b) :
    ∀ (cols x0 : Nat) (pix : PixMap) (idx : Nat),
      x0 + cols ≤ W → idx + cols * bpp ≤ pixels.length →
      putRowAux f bpp pixels W H y cols x0 pix idx =
        LoopRes.ok
          (fun a b =>
            if b = y ∧ x0 ≤ a ∧ a < x0 + cols then
              decodeColor f ((pixels.drop (idx + (a - x0) * bpp)).take bpp)
            else pix a b)
          (idx + cols * bpp) := by
  intro cols
  induction cols with
  | zero =>
    intro x0 pix idx hW hlen
    simp only [putRowAux, Nat.zero_mul, Nat.add_zero]
    congr 1
    funext a b
    rw [if_neg (by omega)]
  | succ cols ih =>
    intro x0 pix idx hW hlen
    have hmul : (cols + 1) * bpp = cols * bpp + bpp := by ring
    have hlen1 : idx + bpp ≤ pixels.length := by omega
    obtain ⟨r, g, b, hdecode⟩ := hdec idx hlen1
    have hxW : x0 < W := by omega
    simp only [putRowAux]
    rw [if_neg (by omega)]
    simp only [hdecode]
    rw [if_pos hxW, if_pos hy]
    rw [ih (x0 + 1) (putPixel pix x0 y (r, g, b)) (idx + bpp) (by omega) (by omega)]
    congr 1
    · funext a b
      by_cases hb0 : b = y
      · subst hb0
        by_cases hax : a = x0
        · subst hax
          rw [if_neg (by omega), if_pos ⟨rfl, by omega, by omega⟩]
          have hz : a - a = 0 := by omega
          simp [putPixel, hz, decodeColor, hdecode]
        · by_cases har : x0 + 1 ≤ a ∧ a < x0 + 1 + cols
          · rw [if_pos ⟨rfl, har.1, har.2⟩, if_pos ⟨rfl, by omega, by omega⟩]
            have h1 : a - x0 = (a - (x0 + 1)) + 1 := by omega
            have h2 : (a - x0) * bpp = (a - (x0 + 1)) * bpp + bpp := by
              rw [h1, Nat.succ_mul]
            have hidx : idx + bpp + (a - (x0 + 1)) * bpp = idx + (a - x0) * bpp := by omega
            rw [hidx]
          · rw [if_neg (by omega), if_neg (by omega)]
            simp only [putPixel]
            rw [if_neg hax]
      · rw [if_neg (by omega), if_neg (by omega)]
        simp only [putPixel]
        by_cases hax : a = x0
        · rw [if_pos hax, if_neg hb0]
        · rw [if_neg hax]
    · omega

/-- Characterization of the outer row loop when every reachable sample
decodes: it returns `Ok`, consumes `rows * width * bpp` bytes, writes
the rectangle `left ≤ a < left + width`, `y0 ≤ b < y0 + rows` in
row-major order, and leaves every other raster entry unchanged. -/
lemma putRowsAux_eq (f : PixelFormat) (bpp : Nat) (pixels : List Nat) (W H left width : Nat)
    (hw : left + width ≤ W) (hbpp : 0 < bpp)
    (hdec : ∀ j, j + bpp ≤ pixels.length →
      ∃ r g b, pixel_to_rgb f ((pixels.drop j).take bpp) = PixelResult.ok r g b) :
    ∀ (rows y0 : Nat) (pix : PixMap) (idx : Nat),
      y0 + rows ≤ H → idx + rows * (width * bpp) ≤ pixels.length →
      putRowsAux f bpp pixels W H left width rows y0 pix idx =
        LoopRes.ok
          (fun a b =>
            if y0 ≤ b ∧ b < y0 + rows ∧ left ≤ a ∧ a < left + width then
              decodeColor f
                ((pixels.drop (idx + ((b - y0) * width + (a - left)) * bpp)).take bpp)
            else pix a b)
          (idx + rows * (width * bpp)) := by
  intro rows
  induction rows with
  | zero =>
    intro y0 pix idx hH hlen
    simp only [putRowsAux, Nat.zero_mul, Nat.add_zero]
    congr 1
    funext a b
    rw [if_neg (by omega)]
  | succ rows ih =>
    intro y0 pix idx hH hlen
    have hmul : (rows + 1) * (width * bpp) = rows * (width * bpp) + width * bpp := by ring
    have hrow := putRowAux_eq f bpp pixels W H y0 (by omega) hbpp hdec width left pix idx hw
      (by omega)
    simp only [putRowsAux, hrow]
    rw [ih (y0 + 1) _ (idx + width * bpp) (by omega) (by omega)]
    congr 1
    · funext a b
      by_cases hb0 : b = y0
      · subst hb0
        by_cases ha : left ≤ a ∧ a < left + width
        · rw [if_neg (by omega), if_pos ⟨rfl, ha.1, ha.2⟩, if_pos ⟨by omega, by omega, ha.1, ha.2⟩]
          have hidx : idx + ((b - b) * width + (a - left)) * bpp = idx + (a - left) * bpp := by
            have hz : b - b = 0 := by omega
            rw [hz, Nat.zero_mul, Nat.zero_add]
          rw [hidx]
        · rw [if_neg (by omega), if_neg (by omega), if_neg (by omega)]
      · by_cases hbr : y0 + 1 ≤ b ∧ b < y0 + 1 + rows ∧ left ≤ a ∧ a < left + width
        · rw [if_pos hbr, if_pos ⟨by omega, by omega, hbr.2.2.1, hbr.2.2.2⟩]
          have h1 : b - y0 = (b - (y0 + 1)) + 1 := by omega
          have h2 : ((b - y0) * width + (a - left)) * bpp =
              ((b - (y0 + 1)) * width + (a - left)) * bpp + width * bpp := by
            rw [h1]
            ring
          have hidx : idx + width * bpp + ((b - (y0 + 1)) * width + (a - left)) * bpp =
              idx + ((b - y0) * width + (a - left)) * bpp := by omega
          rw [hidx]
        · rw [if_neg hbr, if_neg (by omega), if_neg (by omega)]
    · omega

/-- C5: for a rectangle, a flat buffer of `width * height` encoded
samples and a supported, well-formed format, `put_pixels` decodes the
samples in row-major order (rows top-to-bottom, columns left-to-right)
and the resulting raster equals the spec's assembly: the decoded sample
`y * width + x` at position `(left + x, top + y)`, with every raster
pixel outside the rectangle unchanged; bytes-per-pixel is 2 for 16 bpp
and 4 for 32 bpp, and any other `bits_per_pixel` is a decode error. -/
theorem c5_put_pixels_rectangle (img : Image) (rect : Rect) (pixels : List Nat)
    (nr ng nb : Nat)
    (hr : img.format.red_max = 2 ^ nr - 1) (hg : img.format.green_max = 2 ^ ng - 1)
    (hb : img.format.blue_max = 2 ^ nb - 1)
    (hnr : nr ≤ 8) (hng : ng ≤ 8) (hnb : nb ≤ 8)
    (hleft : rect.left + rect.width ≤ img.width)
    (htop : rect.top + rect.height ≤ img.height) :
    (img.format.bits_per_pixel = 16 →
      (img.format.depth = 16 ∨ img.format.depth = 15) →
      img.format.red_shift < 16 → img.format.green_shift < 16 → img.format.blue_shift < 16 →
      pixels.length = rect.width * rect.height * 2 →
      put_pixels img rect pixels = PutResult.ok (assembled_spec img rect pixels 2)) ∧
    (img.format.bits_per_pixel = 32 → img.format.depth = 24 →
      img.format.red_shift < 32 → img.format.green_shift < 32 → img.format.blue_shift < 32 →
      pixels.length = rect.width * rect.height * 4 →
      put_pixels img rect pixels = PutResult.ok (assembled_spec img rect pixels 4)) ∧
    (img.format.bits_per_pixel ≠ 16 → img.format.bits_per_pixel ≠ 32 →
      put_pixels img rect pixels = PutResult.err "Invalid bits per pixel" img.pix) := by
  refine ⟨?_, ?_, ?_⟩
  · intro hbpp hd hrs hgs hbs hlen
    have hdec : ∀ j, j + 2 ≤ pixels.length →
        ∃ r g b, pixel_to_rgb img.format ((pixels.drop j).take 2) = PixelResult.ok r g b := by
      intro j hj
      refine pixel_to_rgb_ok_16 img.format nr ng nb hr hg hb hnr hng hnb hbpp hd hrs hgs hbs
        _ ?_
      rw [List.length_take, List.length_drop]
      omega
    have hlen2 : (0 : Nat) + rect.height * (rect.width * 2) ≤ pixels.length := by
      have hm : rect.height * (rect.width * 2) = rect.width * rect.height * 2 := by ring
      omega
    have hrows := putRowsAux_eq img.format 2 pixels img.width img.height rect.left rect.width
      hleft (by norm_num) hdec rect.height rect.top img.pix 0 htop hlen2
    rw [put_pixels, if_pos hbpp, runPut]
    simp only [hrows]
    congr 1
    funext a b
    simp only [assembled_spec]
    by_cases hin : rect.top ≤ b ∧ b < rect.top + rect.height ∧ rect.left ≤ a ∧
        a < rect.left + rect.width
    · rw [if_pos hin, if_pos ⟨hin.2.2.1, hin.2.2.2, hin.1, hin.2.1⟩]
      have hidx : (0 : Nat) + ((b - rect.top) * rect.width + (a - rect.left)) * 2 =
          ((b - rect.top) * rect.width + (a - rect.left)) * 2 := by omega
      rw [hidx]
    · rw [if_neg hin, if_neg (by omega)]
  · intro hbpp hd hrs hgs hbs hlen
    have hdec : ∀ j, j + 4 ≤ pixels.length →
        ∃ r g b, pixel_to_rgb img.format ((pixels.drop j).take 4) = PixelResult.ok r g b := by
      intro j hj
      refine pixel_to_rgb_ok_32 img.format nr ng nb hr hg hb hnr hng hnb hbpp hd hrs hgs hbs
        _ ?_
      rw [List.length_take, List.length_drop]
      omega
    have hlen2 : (0 : Nat) + rect.height * (rect.width * 4) ≤ pixels.length := by
      have hm : rect.height * (rect.width * 4) = rect.width * rect.height * 4 := by ring
      omega
    have hrows := putRowsAux_eq img.format 4 pixels img.width img.height rect.left rect.width
      hleft (by norm_num) hdec rect.height rect.top img.pix 0 htop hlen2
    rw [put_pixels, if_neg (by omega), if_pos hbpp, runPut]
    simp only [hrows]
    congr 1
    funext a b
    simp only [assembled_spec]
    by_cases hin : rect.top ≤ b ∧ b < rect.top + rect.height ∧ rect.left ≤ a ∧
        a < rect.left + rect.width
    · rw [if_pos hin, if_pos ⟨hin.2.2.1, hin.2.2.2, hin.1, hin.2.1⟩]
      have hidx : (0 : Nat) + ((b - rect.top) * rect.width + (a - rect.left)) * 4 =
          ((b - rect.top) * rect.width + (a - rect.left)) * 4 := by omega
      rw [hidx]
    · rw [if_neg hin, if_neg (by omega)]
  · intro h1 h2
    rw [put_pixels, if_neg h1, if_neg h2]

/-- Witness for C5: a 1-by-1 rectangle written into a fresh 2-by-2
image under `fmt1616`. -/
theorem c5_put_pixels_rectangle_witness :
    put_pixels imgW rectW [255, 255] = PutResult.ok (assembled_spec imgW rectW [255, 255] 2) :=
  (c5_put_pixels_rectangle imgW rectW [255, 255] 5 6 5 (by decide) (by decide) (by decide)
    (by decide) (by decide) (by decide) (by decide) (by decide)).1 rfl (Or.inl rfl)
    (by decide) (by decide) (by decide) (by decide)

/-- C6 counterexample: the claim says that when `put_pixels` returns an
error the raster is left unchanged.  With `fmtC6` (red max 257, not of
the form `2 ^ n - 1`) on the buffer `[1, 0, 1, 1]`, the first sample
decodes to `(64, 64, 64)` and is written at `(0, 0)`, then the second
sample fails the `u8` conversion: `put_pixels` returns `Err` with the
raster already modified at `(0, 0)`. -/
theorem c6_counterexample_partial_write :
    (put_pixels imgC6 rectC6 pixelsC6).isErr = true ∧
    (put_pixels imgC6 rectC6 pixelsC6).getPix 0 0 ≠ imgC6.pix 0 0 := by
  constructor
  · decide
  · decide

/-- C6 amended: a wrong-length sample is a decode `Err` for the
supported `(bits_per_pixel, depth)` pairs, and an unsupported
`bits_per_pixel` makes `put_pixels` return `Err` with the raster
untouched; but decoding a rectangle is not all-or-nothing: when a sample
fails mid-rectangle (a promoted channel value above 255), `put_pixels`
returns `Err` with the previously decoded pixels already written. -/
theorem c6_amended_decode_errors (f : PixelFormat) (l : List Nat) (img : Image) (rect : Rect)
    (pixels : List Nat) :
    (f.bits_per_pixel = 16 → (f.depth = 16 ∨ f.depth = 15) → l.length ≠ 2 →
      pixel_to_rgb f l = PixelResult.err "could not convert slice to array") ∧
    (f.bits_per_pixel = 32 → f.depth = 24 → l.length ≠ 4 →
      pixel_to_rgb f l = PixelResult.err "could not convert slice to array") ∧
    (img.format.bits_per_pixel ≠ 16 → img.format.bits_per_pixel ≠ 32 →
      put_pixels img rect pixels = PutResult.err "Invalid bits per pixel" img.pix) ∧
    ((put_pixels imgC6 rectC6 pixelsC6).isErr = true ∧
      (put_pixels imgC6 rectC6 pixelsC6).getPix 0 0 = (64, 64, 64) ∧
      imgC6.pix 0 0 = (0, 0, 0)) := by
  refine ⟨?_, ?_, ?_, by decide, by decide, by decide⟩
  · intro hbpp hd hl
    have hcond : (f.bits_per_pixel = 16 ∧ f.depth = 16) ∨
        (f.bits_per_pixel = 16 ∧ f.depth = 15) := by
      rcases hd with hd | hd
      · exact Or.inl ⟨hbpp, hd⟩
      · exact Or.inr ⟨hbpp, hd⟩
    rw [pixel_to_rgb, if_pos hcond]
    rcases l with _ | ⟨b0, l⟩
    · rfl
    rcases l with _ | ⟨b1, l⟩
    · rfl
    rcases l with _ | ⟨c, l⟩
    · exact absurd rfl hl
    · rfl
  · intro hbpp hd hl
    rw [pixel_to_rgb, if_neg (by omega), if_pos ⟨hbpp, hd⟩]
    rcases l with _ | ⟨b0, l⟩
    · rfl
    rcases l with _ | ⟨b1, l⟩
    · rfl
    rcases l with _ | ⟨b2, l⟩
    · rfl
    rcases l with _ | ⟨b3, l⟩
    · rfl
    rcases l with _ | ⟨c, l⟩
    · exact absurd rfl hl
    · rfl
  · intro h1 h2
    rw [put_pixels, if_neg h1, if_neg h2]

/-- Witness for C6 (amended): a three-byte sample under the 16-bpp
format is a slice-conversion `Err`, and under an 8-bpp format
`put_pixels` errors with the raster untouched. -/
theorem c6_amended_decode_errors_witness :
    pixel_to_rgb fmt1616 [1, 2, 3] = PixelResult.err "could not convert slice to array" ∧
    put_pixels (Image.new fmt8 1 1) rectW [0] =
      PutResult.err "Invalid bits per pixel" (Image.new fmt8 1 1).pix :=
  ⟨(c6_amended_decode_errors fmt1616 [1, 2, 3] imgC6 rectC6 pixelsC6).1 rfl (Or.inl rfl)
      (by decide),
    (c6_amended_decode_errors fmt1616 [1, 2, 3] (Image.new fmt8 1 1) rectW [0]).2.2.1
      (by decide) (by decide)⟩
